import Mathlib

/-!
Verification of `components/test_cloud_server/src/cluster.rs` (TiKV test
cluster harness) against its natural-language specification.

The Rust source is shallowly embedded: pure functions become Lean
functions, the mutable `ServerCluster` registry becomes explicit state
passing, wall-clock time and external services (placement driver,
engines, RPC responses) become explicit oracle parameters, and code that
can panic returns `Option`.
-/

namespace Cluster

/-! ## Endpoint derivation (`node_addr`, `node_status_addr`)

Rust: `format!("127.0.0.1:2{:04}", node_id)` and
`format!("127.0.0.1:3{:04}", node_id)`.  `{:04}` renders the decimal
representation of the integer, left-padded with the fill character `0`
to a minimum width of 4. -/

/-- One decimal digit rendered as a character, as Rust's integer
`Display` renders it. -/
def digitChar (d : Nat) : Char :=
  match d with
  | 0 => '0' | 1 => '1' | 2 => '2' | 3 => '3' | 4 => '4'
  | 5 => '5' | 6 => '6' | 7 => '7' | 8 => '8' | 9 => '9'
  | _ => '*'

/-- Decimal digits of `n`, most significant first: the embedding of
Rust's `Display` for unsigned integers. -/
def decDigits (n : Nat) : List Char :=
  if _h : n < 10 then [digitChar n]
  else decDigits (n / 10) ++ [digitChar (n % 10)]
  decreasing_by exact Nat.div_lt_self (by omega) (by omega)

/-- Left-pad a rendered number with `0` to a minimum width of 4: the
embedding of the Rust format spec `{:04}` for an unsigned integer. -/
def padZero4 (ds : List Char) : List Char :=
  List.replicate (4 - ds.length) '0' ++ ds

/-- Rust `fn node_addr(node_id: u16) -> String`. -/
def node_addr (node_id : Nat) : String :=
  ⟨"127.0.0.1:2".data ++ padZero4 (decDigits node_id)⟩

/-- Rust `fn node_status_addr(node_id: u16) -> String`. -/
def node_status_addr (node_id : Nat) : String :=
  ⟨"127.0.0.1:3".data ++ padZero4 (decDigits node_id)⟩

/-- Numeric value of a decimal digit character. -/
def charVal (c : Char) : Nat := c.toNat - 48

/-- Numeric value of a decimal digit string (most significant first). -/
def decVal (ds : List Char) : Nat :=
  ds.foldl (fun a c => 10 * a + charVal c) 0

/-- The ten decimal digit characters. -/
def decDigitChars : List Char := ['0', '1', '2', '3', '4', '5', '6', '7', '8', '9']

lemma charVal_digitChar {d : Nat} (h : d < 10) : charVal (digitChar d) = d := by
  interval_cases d <;> decide

lemma digitChar_mem {d : Nat} (h : d < 10) : digitChar d ∈ decDigitChars := by
  interval_cases d <;> decide

lemma digitChar_charVal {c : Char} (h : c ∈ decDigitChars) :
    digitChar (charVal c) = c := by
  fin_cases h <;> decide

lemma charVal_le_nine {c : Char} (h : c ∈ decDigitChars) : charVal c ≤ 9 := by
  fin_cases h <;> decide

lemma decDigits_ne_nil (n : Nat) : decDigits n ≠ [] := by
  rw [decDigits]
  split <;> simp

lemma decDigits_mem (n : Nat) : ∀ c ∈ decDigits n, c ∈ decDigitChars := by
  induction n using Nat.strong_induction_on with
  | _ n ih =>
    intro c hc
    rw [decDigits] at hc
    split at hc
    · simp only [List.mem_singleton] at hc
      subst hc
      exact digitChar_mem (by omega)
    · rw [List.mem_append] at hc
      rcases hc with hc | hc
      · exact ih (n / 10) (Nat.div_lt_self (by omega) (by omega)) c hc
      · simp only [List.mem_singleton] at hc
        subst hc
        exact digitChar_mem (Nat.mod_lt _ (by omega))

lemma foldl_decDigits (n : Nat) :
    ∀ a : Nat, List.foldl (fun a c => 10 * a + charVal c) a (decDigits n) =
      a * 10 ^ (decDigits n).length + n := by
  induction n using Nat.strong_induction_on with
  | _ n ih =>
    intro a
    rw [decDigits]
    split
    · simp only [List.foldl_cons, List.foldl_nil, List.length_singleton]
      rw [charVal_digitChar (by omega : n < 10)]
      ring
    · rw [List.foldl_append, List.length_append,
        ih (n / 10) (Nat.div_lt_self (by omega) (by omega)) a]
      simp only [List.foldl_cons, List.foldl_nil, List.length_singleton]
      rw [charVal_digitChar (Nat.mod_lt _ (by omega))]
      rw [pow_succ]
      have := Nat.div_add_mod n 10
      ring_nf
      omega

lemma decVal_decDigits (n : Nat) : decVal (decDigits n) = n := by
  unfold decVal
  rw [foldl_decDigits n 0]
  omega

lemma foldl_replicate_zero (k : Nat) :
    List.foldl (fun a c => 10 * a + charVal c) 0 (List.replicate k '0') = 0 := by
  induction k with
  | zero => rfl
  | succ k ih =>
    rw [List.replicate_succ, List.foldl_cons]
    simpa [charVal] using ih

lemma decVal_padZero4 (ds : List Char) : decVal (padZero4 ds) = decVal ds := by
  unfold decVal padZero4
  rw [List.foldl_append, foldl_replicate_zero]

lemma decDigits_length_le {n : Nat} (h : n ≤ 9999) : (decDigits n).length ≤ 4 := by
  have h10 : ∀ m : Nat, m ≤ 9 → (decDigits m).length = 1 := by
    intro m hm
    rw [decDigits]
    simp [show m < 10 by omega]
  have step : ∀ m : Nat, 10 ≤ m →
      (decDigits m).length = (decDigits (m / 10)).length + 1 := by
    intro m hm
    conv_lhs => rw [decDigits]
    simp [show ¬ m < 10 by omega]
  by_cases h1 : n < 10
  · rw [h10 n (by omega)]; omega
  by_cases h2 : n < 100
  · rw [step n (by omega), h10 (n / 10) (by omega)]
    omega
  by_cases h3 : n < 1000
  · rw [step n (by omega), step (n / 10) (by omega),
      h10 (n / 10 / 10) (by omega)]
    omega
  · rw [step n (by omega), step (n / 10) (by omega),
      step (n / 10 / 10) (by omega), h10 (n / 10 / 10 / 10) (by omega)]

lemma padZero4_length {n : Nat} (h : n ≤ 9999) :
    (padZero4 (decDigits n)).length = 4 := by
  have := decDigits_length_le h
  have hne := decDigits_ne_nil n
  have : (decDigits n).length ≠ 0 := by
    simpa [List.length_eq_zero] using hne
  unfold padZero4
  rw [List.length_append, List.length_replicate]
  omega

lemma padZero4_mem (n : Nat) :
    ∀ c ∈ padZero4 (decDigits n), c ∈ decDigitChars := by
  intro c hc
  unfold padZero4 at hc
  rw [List.mem_append] at hc
  rcases hc with hc | hc
  · rw [List.eq_of_mem_replicate hc]; decide
  · exact decDigits_mem n c hc

lemma decVal_pad_eq (n : Nat) : decVal (padZero4 (decDigits n)) = n := by
  rw [decVal_padZero4, decVal_decDigits]

/-- A length-4 digit string is determined by its numeric value. -/
lemma digit4_unique (ds1 ds2 : List Char)
    (h1 : ds1.length = 4) (h2 : ds2.length = 4)
    (hd1 : ∀ c ∈ ds1, c ∈ decDigitChars) (hd2 : ∀ c ∈ ds2, c ∈ decDigitChars)
    (hv : decVal ds1 = decVal ds2) : ds1 = ds2 := by
  match ds1, h1 with
  | [a1, b1, c1, d1], _ =>
  match ds2, h2 with
  | [a2, b2, c2, d2], _ =>
  simp only [List.mem_cons, List.not_mem_nil, or_false, forall_eq_or_imp,
    forall_eq] at hd1 hd2
  obtain ⟨ha1, hb1, hc1, hd1'⟩ := hd1
  obtain ⟨ha2, hb2, hc2, hd2'⟩ := hd2
  have hchar : ∀ x y : Char, x ∈ decDigitChars → y ∈ decDigitChars →
      charVal x = charVal y → x = y := by
    intro x y hx hy hxy
    rw [← digitChar_charVal hx, ← digitChar_charVal hy, hxy]
  simp only [decVal, List.foldl_cons, List.foldl_nil] at hv
  have e1 := charVal_le_nine ha1
  have e2 := charVal_le_nine hb1
  have e3 := charVal_le_nine hc1
  have e4 := charVal_le_nine hd1'
  have f1 := charVal_le_nine ha2
  have f2 := charVal_le_nine hb2
  have f3 := charVal_le_nine hc2
  have f4 := charVal_le_nine hd2'
  have ga : charVal a1 = charVal a2 := by omega
  have gb : charVal b1 = charVal b2 := by omega
  have gc : charVal c1 = charVal c2 := by omega
  have gd : charVal d1 = charVal d2 := by omega
  rw [hchar a1 a2 ha1 ha2 ga, hchar b1 b2 hb1 hb2 gb,
    hchar c1 c2 hc1 hc2 gc, hchar d1 d2 hd1' hd2' gd]

/-- The property C3 asserts of a node id `n`: both derived addresses are
`127.0.0.1:` followed by the digit `2` (resp. `3`) followed by the
decimal representation of `n` zero-padded to four digits — i.e. the
unique length-4 digit string whose value is `n`. -/
def AddrShape (n : Nat) : Prop :=
  (node_addr n).data = "127.0.0.1:".data ++ '2' :: padZero4 (decDigits n) ∧
  (node_status_addr n).data = "127.0.0.1:".data ++ '3' :: padZero4 (decDigits n) ∧
  (padZero4 (decDigits n)).length = 4 ∧
  (∀ c ∈ padZero4 (decDigits n), c ∈ decDigitChars) ∧
  decVal (padZero4 (decDigits n)) = n ∧
  (∀ ds : List Char, ds.length = 4 → (∀ c ∈ ds, c ∈ decDigitChars) →
    decVal ds = n → ds = padZero4 (decDigits n))

/-- C3: for every node id `n` (at most 9999), the client address is
`127.0.0.1:` + `2` + the decimal representation of `n` zero-padded to
four digits, the status address is the same with prefix `3`, and in
particular `n = 1` yields `127.0.0.1:20001` and `127.0.0.1:30001`. -/
theorem node_addr_shape (n : Nat) (h : n ≤ 9999) :
    AddrShape n ∧
    node_addr 1 = "127.0.0.1:20001" ∧
    node_status_addr 1 = "127.0.0.1:30001" := by
  have e2 : "127.0.0.1:2".data = "127.0.0.1:".data ++ ['2'] := by decide
  have e3 : "127.0.0.1:3".data = "127.0.0.1:".data ++ ['3'] := by decide
  refine ⟨⟨?_, ?_, padZero4_length h, padZero4_mem n, decVal_pad_eq n, ?_⟩, ?_, ?_⟩
  · show "127.0.0.1:2".data ++ padZero4 (decDigits n) = _
    rw [e2, List.append_assoc]
    rfl
  · show "127.0.0.1:3".data ++ padZero4 (decDigits n) = _
    rw [e3, List.append_assoc]
    rfl
  · intro ds hlen hmem hval
    exact digit4_unique ds (padZero4 (decDigits n)) hlen (padZero4_length h)
      hmem (padZero4_mem n) (by rw [hval, decVal_pad_eq])
  · have d1 : decDigits 1 = [Char.ofNat 49] := by rw [decDigits]; norm_num [digitChar]
    show (⟨"127.0.0.1:2".data ++ padZero4 (decDigits 1)⟩ : String) = _
    rw [d1]
    decide
  · have d1 : decDigits 1 = [Char.ofNat 49] := by rw [decDigits]; norm_num [digitChar]
    show (⟨"127.0.0.1:3".data ++ padZero4 (decDigits 1)⟩ : String) = _
    rw [d1]
    decide

/-- Witness for C3 at `n = 1`. -/
theorem node_addr_shape_witness :
    (1 : Nat) ≤ 9999 ∧ (AddrShape 1 ∧
      node_addr 1 = "127.0.0.1:20001" ∧
      node_status_addr 1 = "127.0.0.1:30001") :=
  ⟨by decide, node_addr_shape 1 (by decide)⟩

lemma node_addr_injOn {n1 n2 : Nat}
    (h : node_addr n1 = node_addr n2) : n1 = n2 := by
  have hd : (node_addr n1).data = (node_addr n2).data := by rw [h]
  have hp : padZero4 (decDigits n1) = padZero4 (decDigits n2) :=
    List.append_inj_right hd rfl
  calc n1 = decVal (padZero4 (decDigits n1)) := (decVal_pad_eq n1).symm
    _ = decVal (padZero4 (decDigits n2)) := by rw [hp]
    _ = n2 := decVal_pad_eq n2

lemma node_status_addr_injOn {n1 n2 : Nat}
    (h : node_status_addr n1 = node_status_addr n2) : n1 = n2 := by
  have hd : (node_status_addr n1).data = (node_status_addr n2).data := by rw [h]
  have hp : padZero4 (decDigits n1) = padZero4 (decDigits n2) :=
    List.append_inj_right hd rfl
  calc n1 = decVal (padZero4 (decDigits n1)) := (decVal_pad_eq n1).symm
    _ = decVal (padZero4 (decDigits n2)) := by rw [hp]
    _ = n2 := decVal_pad_eq n2

lemma node_addr_ne_status (m1 m2 : Nat) : node_addr m1 ≠ node_status_addr m2 := by
  intro h
  have hd : (node_addr m1).data = (node_status_addr m2).data := by rw [h]
  have : "127.0.0.1:2".data = "127.0.0.1:3".data :=
    (List.append_inj hd (by decide)).1
  exact absurd this (by decide)

/-- C4: endpoint derivation is collision-free for node ids up to 9999:
distinct node ids give distinct client addresses and distinct status
addresses, and no client address ever equals a status address. -/
theorem endpoint_collision_free (n1 n2 : Nat)
    (_h1 : n1 ≤ 9999) (_h2 : n2 ≤ 9999) (hne : n1 ≠ n2) :
    node_addr n1 ≠ node_addr n2 ∧
    node_status_addr n1 ≠ node_status_addr n2 ∧
    (∀ m1 m2 : Nat, node_addr m1 ≠ node_status_addr m2) :=
  ⟨fun h => hne (node_addr_injOn h),
   fun h => hne (node_status_addr_injOn h),
   node_addr_ne_status⟩

/-- Witness for C4 at `n1 = 1`, `n2 = 2`. -/
theorem endpoint_collision_free_witness :
    ((1 : Nat) ≤ 9999 ∧ (2 : Nat) ≤ 9999 ∧ (1 : Nat) ≠ 2) ∧
    (node_addr 1 ≠ node_addr 2 ∧
      node_status_addr 1 ≠ node_status_addr 2 ∧
      (∀ m1 m2 : Nat, node_addr m1 ≠ node_status_addr m2)) :=
  ⟨by decide, endpoint_collision_free 1 2 (by decide) (by decide) (by decide)⟩

/-! ## Node registry (`ServerCluster` maps, `start_node`, `stop_node`, `stop`)

The two `HashMap`s of `ServerCluster` (`servers : node_id → TiKVServer`
and `channels : store_id → Channel`) are embedded as functions into
`Option`.  A `TiKVServer` is abstracted to the one attribute the
registry logic reads from it, the store id it reports
(`get_store_id()`); the store id itself is assigned by the external
engine and is therefore a parameter of `start_node`. -/

/-- The part of a `TiKVServer` handle the registry logic observes. -/
structure Server where
  storeId : Nat
  deriving DecidableEq

/-- A client channel, recording the address it was connected to. -/
structure Channel where
  addr : String
  deriving DecidableEq

/-- The registry part of `ServerCluster`: `servers` keyed by node id,
`channels` keyed by store id. -/
structure ClusterState where
  servers : Nat → Option Server
  channels : Nat → Option Channel

/-- The registry of a freshly constructed `ServerCluster` before any
`start_node` call: both maps empty. -/
def emptyCluster : ClusterState :=
  { servers := fun _ => none, channels := fun _ => none }

/-- Rust `pub fn start_node(&mut self, node_id, update_conf)`: the server is
set up and run, reports `storeId`, a channel to `node_addr node_id` is
inserted under `storeId`, and the server is inserted under `node_id`. -/
def start_node (c : ClusterState) (node_id store_id : Nat) : ClusterState :=
  { servers := fun k => if k = node_id then some ⟨store_id⟩ else c.servers k,
    channels := fun s =>
      if s = store_id then some ⟨node_addr node_id⟩ else c.channels s }

/-- Rust `pub fn stop_node(&mut self, node_id: u16)`: if the node is
registered, remove it and the channel keyed by its reported store id
(and stop the server); otherwise do nothing. -/
def stop_node (c : ClusterState) (node_id : Nat) : ClusterState :=
  match c.servers node_id with
  | some node =>
      { servers := fun k => if k = node_id then none else c.servers k,
        channels := fun s => if s = node.storeId then none else c.channels s }
  | none => c

/-- Rust `pub fn new(nodes, update_conf)`: start every node in the list.  The
store id each server reports is external input, so `nodes` carries
`(node_id, store_id)` pairs. -/
def newCluster (nodes : List (Nat × Nat)) : ClusterState :=
  nodes.foldl (fun c p => start_node c p.1 p.2) emptyCluster

/-- Rust `pub fn stop(&mut self)`: stop every node of the given enumeration
of the node set. -/
def stopAll (c : ClusterState) (nodes : List Nat) : ClusterState :=
  nodes.foldl (fun c n => stop_node c n) c

/-- The registry bijection of §3 of the spec: every registered node's
reported store id has a channel, and the correspondence between node
ids and channel-map store ids is one-to-one. -/
def RegistryInv (c : ClusterState) : Prop :=
  (∀ n s, c.servers n = some s → c.channels s.storeId ≠ none) ∧
  (∀ n1 n2 s1 s2, c.servers n1 = some s1 → c.servers n2 = some s2 →
    s1.storeId = s2.storeId → n1 = n2) ∧
  (∀ st, c.channels st ≠ none → ∃ n s, c.servers n = some s ∧ s.storeId = st)

lemma stop_node_absent (c : ClusterState) (n : Nat) (h : c.servers n = none) :
    stop_node c n = c := by
  simp [stop_node, h]

lemma stop_node_servers_none (c : ClusterState) (n : Nat) :
    (stop_node c n).servers n = none := by
  cases h : c.servers n with
  | none => rw [stop_node_absent c n h]; exact h
  | some srv => simp [stop_node, h]

/-- C5: after `stop_node n`, node `n` is absent from the node set and
the store id its server reported is absent from the channel set; and on
an unregistered id `stop_node` leaves the state unchanged, so a second
call on the same id is a no-op. -/
theorem stop_node_spec (c : ClusterState) (n : Nat) :
    (∀ srv, c.servers n = some srv →
      (stop_node c n).servers n = none ∧
      (stop_node c n).channels srv.storeId = none) ∧
    (c.servers n = none → stop_node c n = c) ∧
    stop_node (stop_node c n) n = stop_node c n := by
  refine ⟨?_, stop_node_absent c n, ?_⟩
  · intro srv hsrv
    constructor
    · exact stop_node_servers_none c n
    · simp [stop_node, hsrv]
  · exact stop_node_absent _ n (stop_node_servers_none c n)

/-- Witness for C5: a one-node cluster, stopping node 1 (store 7). -/
theorem stop_node_spec_witness :
    (start_node emptyCluster 1 7).servers 1 = some ⟨7⟩ ∧
    ((stop_node (start_node emptyCluster 1 7) 1).servers 1 = none ∧
      (stop_node (start_node emptyCluster 1 7) 1).channels 7 = none) :=
  ⟨rfl, (stop_node_spec (start_node emptyCluster 1 7) 1).1 ⟨7⟩ rfl⟩

lemma start_node_inv {c : ClusterState} {nid sid : Nat}
    (hInv : RegistryInv c) (habs : c.servers nid = none)
    (hfresh : ∀ k s, c.servers k = some s → s.storeId ≠ sid) :
    RegistryInv (start_node c nid sid) := by
  obtain ⟨i1, i2, i3⟩ := hInv
  refine ⟨?_, ?_, ?_⟩
  · intro n s hs
    simp only [start_node] at hs ⊢
    by_cases hn : n = nid
    · subst hn
      rw [if_pos rfl] at hs
      cases hs
      simp
    · rw [if_neg hn] at hs
      by_cases hst : s.storeId = sid
      · simp [hst]
      · rw [if_neg hst]
        exact i1 n s hs
  · intro n1 n2 s1 s2 hs1 hs2 hst
    simp only [start_node] at hs1 hs2
    by_cases h1 : n1 = nid <;> by_cases h2 : n2 = nid
    · rw [h1, h2]
    · subst h1
      rw [if_pos rfl] at hs1
      rw [if_neg h2] at hs2
      cases hs1
      exact absurd hst.symm (hfresh n2 s2 hs2)
    · subst h2
      rw [if_pos rfl] at hs2
      rw [if_neg h1] at hs1
      cases hs2
      exact absurd hst (hfresh n1 s1 hs1)
    · rw [if_neg h1] at hs1
      rw [if_neg h2] at hs2
      exact i2 n1 n2 s1 s2 hs1 hs2 hst
  · intro st hst
    simp only [start_node] at hst ⊢
    by_cases h : st = sid
    · subst h
      exact ⟨nid, ⟨st⟩, by simp, rfl⟩
    · rw [if_neg h] at hst
      obtain ⟨k, s, hk, hsk⟩ := i3 st hst
      have hknid : k ≠ nid := by
        intro hkn
        rw [hkn, habs] at hk
        exact Option.noConfusion hk
      exact ⟨k, s, by rw [if_neg hknid]; exact hk, hsk⟩

lemma stop_node_inv {c : ClusterState} {nid : Nat} (hInv : RegistryInv c) :
    RegistryInv (stop_node c nid) := by
  obtain ⟨i1, i2, i3⟩ := hInv
  cases hsrv : c.servers nid with
  | none => rw [stop_node_absent c nid hsrv]; exact ⟨i1, i2, i3⟩
  | some node =>
    refine ⟨?_, ?_, ?_⟩
    · intro n s hs
      simp only [stop_node, hsrv] at hs ⊢
      by_cases hn : n = nid
      · rw [if_pos hn] at hs
        exact Option.noConfusion hs
      · rw [if_neg hn] at hs
        have hne : s.storeId ≠ node.storeId := by
          intro he
          exact hn (i2 n nid s node hs hsrv he)
        rw [if_neg hne]
        exact i1 n s hs
    · intro n1 n2 s1 s2 hs1 hs2 hst
      simp only [stop_node, hsrv] at hs1 hs2
      by_cases h1 : n1 = nid
      · rw [if_pos h1] at hs1
        exact Option.noConfusion hs1
      by_cases h2 : n2 = nid
      · rw [if_pos h2] at hs2
        exact Option.noConfusion hs2
      rw [if_neg h1] at hs1
      rw [if_neg h2] at hs2
      exact i2 n1 n2 s1 s2 hs1 hs2 hst
    · intro st hst
      simp only [stop_node, hsrv] at hst ⊢
      by_cases h : st = node.storeId
      · rw [if_pos h] at hst
        exact absurd rfl hst
      · rw [if_neg h] at hst
        obtain ⟨k, s, hk, hsk⟩ := i3 st hst
        have hknid : k ≠ nid := by
          intro hkn
          rw [hkn, hsrv] at hk
          cases hk
          exact h hsk.symm
        exact ⟨k, s, by rw [if_neg hknid]; exact hk, hsk⟩

lemma stopAll_inv {c : ClusterState} (nodes : List Nat) (hInv : RegistryInv c) :
    RegistryInv (stopAll c nodes) := by
  induction nodes generalizing c with
  | nil => exact hInv
  | cons n rest ih => exact ih (stop_node_inv hInv)

lemma emptyCluster_inv : RegistryInv emptyCluster := by
  refine ⟨?_, ?_, ?_⟩
  · intro n s hs
    exact Option.noConfusion hs
  · intro n1 n2 s1 s2 hs1 _ _
    exact Option.noConfusion hs1
  · intro st hst
    exact absurd rfl hst

lemma newCluster_aux (specs : List (Nat × Nat)) :
    ∀ c : ClusterState, RegistryInv c →
    (specs.map Prod.fst).Nodup → (specs.map Prod.snd).Nodup →
    (∀ p ∈ specs, c.servers p.1 = none) →
    (∀ k s, c.servers k = some s → s.storeId ∉ specs.map Prod.snd) →
    RegistryInv (specs.foldl (fun c p => start_node c p.1 p.2) c) := by
  induction specs with
  | nil => intro c hInv _ _ _ _; exact hInv
  | cons p rest ih =>
    intro c hInv hn1 hn2 hdom hsto
    simp only [List.map_cons, List.nodup_cons] at hn1 hn2
    rw [List.foldl_cons]
    apply ih (start_node c p.1 p.2) ?_ hn1.2 hn2.2
    · intro q hq
      simp only [start_node]
      have hne : q.1 ≠ p.1 := by
        intro he
        exact hn1.1 (he ▸ List.mem_map_of_mem Prod.fst hq)
      rw [if_neg hne]
      exact hdom q (List.mem_cons_of_mem p hq)
    · intro k s hk
      simp only [start_node] at hk
      by_cases hkp : k = p.1
      · rw [if_pos hkp] at hk
        cases hk
        exact hn2.1
      · rw [if_neg hkp] at hk
        have := hsto k s hk
        simp only [List.map_cons, List.mem_cons] at this
        intro hmem
        exact this (Or.inr hmem)
    · exact start_node_inv hInv (hdom p (List.mem_cons_self p rest))
        (fun k s hk he =>
          hsto k s hk (by rw [List.map_cons]; exact he ▸ List.mem_cons_self _ _))

/-- C6: the registry bijection is an invariant: it holds of the empty
registry, is established by `new` (started from distinct node ids and
distinct engine-assigned store ids), and is preserved by `start_node`
(on a fresh node id with a fresh store id), by `stop_node`, and by
`stop`. -/
theorem registry_bijection_invariant (c : ClusterState)
    (node_id store_id : Nat) (nodes : List Nat) (specs : List (Nat × Nat)) :
    RegistryInv emptyCluster ∧
    ((specs.map Prod.fst).Nodup → (specs.map Prod.snd).Nodup →
      RegistryInv (newCluster specs)) ∧
    (RegistryInv c → c.servers node_id = none →
      (∀ k s, c.servers k = some s → s.storeId ≠ store_id) →
      RegistryInv (start_node c node_id store_id)) ∧
    (RegistryInv c → RegistryInv (stop_node c node_id)) ∧
    (RegistryInv c → RegistryInv (stopAll c nodes)) := by
  refine ⟨emptyCluster_inv, ?_, ?_, stop_node_inv, stopAll_inv nodes⟩
  · intro h1 h2
    exact newCluster_aux specs emptyCluster emptyCluster_inv h1 h2
      (fun _ _ => rfl) (fun k s hk => Option.noConfusion hk)
  · intro hInv habs hfresh
    exact start_node_inv hInv habs hfresh

/-- Witness for C6: a two-node cluster built by `new`, then one node
stopped and a third started. -/
theorem registry_bijection_invariant_witness :
    ((([(1, 7), (2, 8)] : List (Nat × Nat)).map Prod.fst).Nodup ∧
      (([(1, 7), (2, 8)] : List (Nat × Nat)).map Prod.snd).Nodup) ∧
    RegistryInv (newCluster [(1, 7), (2, 8)]) :=
  ⟨⟨by decide, by decide⟩,
    (registry_bijection_invariant emptyCluster 0 0 [] [(1, 7), (2, 8)]).2.1
      (by decide) (by decide)⟩

/-! ## Retry driver (`retry_req!`)

```
let start = Instant::now();
let timeout = Duration::from_millis($timeout);
let mut tried_times = 0;
while tried_times < $retry || start.saturating_elapsed() < timeout {
    if $check_resp { break; }
    else {
        std::thread::sleep(Duration::from_millis(200));
        tried_times += 1;
        $resp = $call_req;
        continue;
    }
}
```

The loop state is `(tried_times, elapsed, resp, done)`; one execution of
the `while` head plus (at most) one body is one `retry_step`.  Wall
clock is explicit: `elapsedMs` advances by the 200 ms sleep plus the
duration `attemptMs k` of the `k`-th re-issued request. -/

/-- State of one `retry_req!` loop: attempts so far, elapsed wall-clock
milliseconds, the current response, and whether the loop has exited. -/
structure RetryState (Resp : Type) where
  tried : Nat
  elapsedMs : Nat
  resp : Resp
  done : Bool

/-- One iteration of the `retry_req!` loop: test the `while` guard
(`tried_times < retry || elapsed < timeout`); inside, break on
`check_resp`, otherwise sleep 200 ms and re-issue the request. -/
def retry_step {Resp : Type} (call : Nat → Resp) (attemptMs : Nat → Nat)
    (check : Resp → Bool) (retry timeoutMs : Nat)
    (s : RetryState Resp) : RetryState Resp :=
  if s.done then s
  else if s.tried < retry || s.elapsedMs < timeoutMs then
    if check s.resp then { s with done := true }
    else { tried := s.tried + 1,
           elapsedMs := s.elapsedMs + 200 + attemptMs s.tried,
           resp := call s.tried,
           done := false }
  else { s with done := true }

/-- C2: the loop exits iff the success predicate holds of the current
response or both budgets are exhausted (attempts ≥ `retry` AND elapsed
≥ `timeout`); when it does not exit it sleeps 200 ms and re-issues the
request — in particular a state with only one exhausted budget and a
failing predicate keeps attempting. -/
theorem retry_req_exit_iff {Resp : Type} (call : Nat → Resp)
    (attemptMs : Nat → Nat) (check : Resp → Bool) (retry timeoutMs : Nat)
    (s : RetryState Resp) (hrun : s.done = false) :
    ((retry_step call attemptMs check retry timeoutMs s).done = true ↔
      check s.resp = true ∨ (retry ≤ s.tried ∧ timeoutMs ≤ s.elapsedMs)) ∧
    (check s.resp = false → (s.tried < retry ∨ s.elapsedMs < timeoutMs) →
      (retry_step call attemptMs check retry timeoutMs s).done = false ∧
      (retry_step call attemptMs check retry timeoutMs s).tried = s.tried + 1 ∧
      (retry_step call attemptMs check retry timeoutMs s).elapsedMs =
        s.elapsedMs + 200 + attemptMs s.tried ∧
      (retry_step call attemptMs check retry timeoutMs s).resp = call s.tried) := by
  constructor
  · rw [retry_step, if_neg (by rw [hrun]; exact Bool.false_ne_true)]
    by_cases hg : s.tried < retry || s.elapsedMs < timeoutMs
    · rw [if_pos hg]
      by_cases hc : check s.resp = true
      · simp [hc]
      · rw [if_neg hc]
        simp only [Bool.or_eq_true, decide_eq_true_eq] at hg
        constructor
        · intro h
          exact absurd h (by simp)
        · intro h
          rcases h with h | h
          · exact absurd h hc
          · omega
    · rw [if_neg hg]
      simp only [Bool.or_eq_true, decide_eq_true_eq, not_or, Nat.not_lt] at hg
      simp [hg.1, hg.2]
  · intro hc hg
    rw [retry_step, if_neg (by rw [hrun]; exact Bool.false_ne_true),
      if_pos (by simpa using hg), if_neg (by rw [hc]; exact Bool.false_ne_true)]
    exact ⟨rfl, rfl, rfl, rfl⟩

/-- Witness for C2: attempts exhausted (10 of 10) but only 500 ms of the
3000 ms timeout elapsed, predicate false: the loop keeps attempting. -/
theorem retry_req_exit_iff_witness :
    ((false : Bool) = false ∧ (false : Bool) = false ∧
      ((10 : Nat) < 10 ∨ (500 : Nat) < 3000)) ∧
    ((retry_step (fun _ => true) (fun _ => 0) (fun b => b) 10 3000
        ⟨10, 500, false, false⟩).done = false ∧
      (retry_step (fun _ => true) (fun _ => 0) (fun b => b) 10 3000
        ⟨10, 500, false, false⟩).tried = 10 + 1 ∧
      (retry_step (fun _ => true) (fun _ => 0) (fun b => b) 10 3000
        ⟨10, 500, false, false⟩).elapsedMs = 500 + 200 + 0 ∧
      (retry_step (fun _ => true) (fun _ => 0) (fun b => b) 10 3000
        ⟨10, 500, false, false⟩).resp = true) :=
  ⟨⟨rfl, rfl, Or.inr (by decide)⟩,
    (retry_req_exit_iff (fun _ => true) (fun _ => 0) (fun b => b) 10 3000
      ⟨10, 500, false, false⟩ rfl).2 rfl (Or.inr (by decide))⟩

/-! ## Transactional client facade (`kv_prewrite`, `kv_commit`, `put_kv`)

Keys and values are byte strings, embedded as `List Nat`.  The RPC
context built by `new_rpc_context` from the placement driver's region
info is an oracle parameter `resolveCtx`.  Each wrapper is embedded as
the request it constructs and sends; the retry/assert handling of the
*response* is the `retry_req!` loop modelled above and is orthogonal to
the request contents these claims are about.  `kv_commit` returns
`Option`: `none` is the panic of `keys.first().unwrap()`. -/

/-- Rust `Op::Put`, the only mutation kind the facade issues. -/
inductive Op where
  | Put
  deriving DecidableEq

/-- Rust `kvrpcpb::Mutation` as filled in by `put_kv`. -/
structure Mutation where
  op : Op
  key : List Nat
  value : List Nat
  deriving DecidableEq

/-- Rust `kvrpcpb::Context` as filled in by `new_rpc_context`: region id,
region epoch version, and the leader peer's store id. -/
structure Ctx where
  regionId : Nat
  epochVer : Nat
  leaderStoreId : Nat
  deriving DecidableEq

/-- Rust `kvrpcpb::PrewriteRequest` as filled in by `kv_prewrite`. -/
structure PrewriteRequest where
  ctx : Ctx
  mutations : List Mutation
  primaryLock : List Nat
  startVersion : Nat
  lockTtl : Nat
  minCommitTs : Nat
  deriving DecidableEq

/-- Rust `kvrpcpb::CommitRequest` as filled in by `kv_commit`. -/
structure CommitRequest where
  ctx : Ctx
  keys : List (List Nat)
  startVersion : Nat
  commitVersion : Nat
  deriving DecidableEq

/-- Modelled from the spec: `get_ts` blocks on the metadata service's
timestamp oracle (`pd_client.get_tso()`, external to this repository),
which hands out strictly increasing timestamps; the oracle state is a
counter and each call returns the next timestamp. -/
def get_ts (tso : Nat) : Nat × Nat := (tso + 1, tso + 1)

/-- Rust `pub fn kv_prewrite(&self, muts, pk, ts)`: resolve the context from
`pk`, and send a prewrite carrying the mutations, primary `pk`, start
version `ts`, lock TTL 3000 and min commit ts `ts + 1`. -/
def kv_prewrite (resolveCtx : List Nat → Ctx) (muts : List Mutation)
    (pk : List Nat) (ts : Nat) : PrewriteRequest :=
  let ctx := resolveCtx pk
  { ctx := ctx, mutations := muts, primaryLock := pk, startVersion := ts,
    lockTtl := 3000, minCommitTs := ts + 1 }

/-- Rust `pub fn kv_commit(&self, keys, start_ts, commit_ts)`: resolve the
context from `keys.first().unwrap()` — a panic (`none`) on an empty
list, before any request is built — then send the commit request. -/
def kv_commit (resolveCtx : List Nat → Ctx) (keys : List (List Nat))
    (start_ts commit_ts : Nat) : Option CommitRequest :=
  match keys with
  | [] => none
  | k :: _ =>
    some { ctx := resolveCtx k, keys := keys, startVersion := start_ts,
           commitVersion := commit_ts }

/-- One RPC issued by the facade. -/
inductive RpcEvent where
  | getTso
  | prewrite (req : PrewriteRequest)
  | commit (req : CommitRequest)
  deriving DecidableEq

/-- Everything one `put_kv` call did: the two timestamps it acquired,
the requests it built, and the RPCs it issued in order.  A `none`
`commitReq` is the `kv_commit` panic; the events list then stops before
any commit RPC. -/
structure PutKvRun where
  startTs : Nat
  commitTs : Nat
  prewriteReq : PrewriteRequest
  commitReq : Option CommitRequest
  events : List RpcEvent
  tsoAfter : Nat
  deriving DecidableEq

/-- Rust `pub fn put_kv(&self, rng, gen_key, gen_val)`: acquire `start_ts`,
build one `Put` mutation per index of `rng`, prewrite with
`gen_key(rng.start)` as primary, acquire `commit_ts`, and commit the
mutations' keys. -/
def put_kv (resolveCtx : List Nat → Ctx) (gen_key gen_val : Nat → List Nat)
    (rstart rend tso : Nat) : PutKvRun :=
  let start_key := gen_key rstart
  let p1 := get_ts tso
  let start_ts := p1.1
  let mutations := (List.range' rstart (rend - rstart)).map
      (fun i => ⟨Op.Put, gen_key i, gen_val i⟩)
  let keys := mutations.map Mutation.key
  let preq := kv_prewrite resolveCtx mutations start_key start_ts
  let p2 := get_ts p1.2
  let commit_ts := p2.1
  let creqOpt := kv_commit resolveCtx keys start_ts commit_ts
  { startTs := start_ts, commitTs := commit_ts, prewriteReq := preq,
    commitReq := creqOpt,
    events := [RpcEvent.getTso, RpcEvent.prewrite preq, RpcEvent.getTso] ++
      (match creqOpt with
        | none => []
        | some creq => [RpcEvent.commit creq]),
    tsoAfter := p2.2 }

/-- C1 (failing input): `put_kv` over the empty range `5..5` is *not* a
no-op: it acquires a timestamp, issues a prewrite RPC with zero
mutations, acquires a second timestamp, and then panics inside
`kv_commit` at `keys.first().unwrap()` (commit request `none`). -/
theorem put_kv_empty_range_rpcs :
    (put_kv (fun _ => ⟨0, 0, 0⟩) (fun i => [i]) (fun i => [i]) 5 5 0).commitReq
        = none ∧
    (put_kv (fun _ => ⟨0, 0, 0⟩) (fun i => [i]) (fun i => [i]) 5 5 0).events =
      [RpcEvent.getTso,
       RpcEvent.prewrite ⟨⟨0, 0, 0⟩, [], [5], 1, 3000, 2⟩,
       RpcEvent.getTso] :=
  ⟨rfl, rfl⟩

/-- C10: `kv_commit` with an empty key list panics before any RPC; with
a non-empty list the context is resolved from the first key and the
request carries the full key list and the two versions. -/
theorem kv_commit_first_key (resolveCtx : List Nat → Ctx)
    (k : List Nat) (rest : List (List Nat)) (start_ts commit_ts : Nat) :
    kv_commit resolveCtx [] start_ts commit_ts = none ∧
    kv_commit resolveCtx (k :: rest) start_ts commit_ts =
      some { ctx := resolveCtx k, keys := k :: rest,
             startVersion := start_ts, commitVersion := commit_ts } :=
  ⟨rfl, rfl⟩

/-- The facade invariants C7 asserts of one `put_kv` call over
`[a, b)`: commit ts strictly above start ts, the primary key among the
prewrite mutations' keys and equal to the first generated key, and the
commit issued with exactly the prewrite mutations' key list. -/
def PutKvInv (resolveCtx : List Nat → Ctx) (gen_key gen_val : Nat → List Nat)
    (a b tso : Nat) : Prop :=
  let run := put_kv resolveCtx gen_key gen_val a b tso
  run.startTs < run.commitTs ∧
  run.prewriteReq.primaryLock = gen_key a ∧
  run.prewriteReq.primaryLock ∈ run.prewriteReq.mutations.map Mutation.key ∧
  ∃ creq, run.commitReq = some creq ∧
    creq.keys = run.prewriteReq.mutations.map Mutation.key ∧
    creq.startVersion = run.startTs ∧
    creq.commitVersion = run.commitTs ∧
    creq.keys.head? = some (gen_key a)

/-- C7 (counterexample): on the empty range `5..5`, the primary key
`gen_key 5` sent to prewrite is not among the (zero) prewrite
mutations' keys, so the claim fails without a non-emptiness bound. -/
theorem put_kv_primary_cex :
    ¬ ((put_kv (fun _ => ⟨0, 0, 0⟩) (fun i => [i]) (fun i => [i]) 5 5
          0).prewriteReq.primaryLock ∈
        (put_kv (fun _ => ⟨0, 0, 0⟩) (fun i => [i]) (fun i => [i]) 5 5
          0).prewriteReq.mutations.map Mutation.key) := by
  decide

/-- C7 (amended): for every `put_kv` call over a non-empty range, the
facade invariants hold: `commit_ts > start_ts` (both from the timestamp
oracle), the primary prewrite key is the first generated key and is
among the prewrite mutations' keys, and the key list sent to commit is
exactly the prewrite mutations' key list. -/
theorem put_kv_invariants (resolveCtx : List Nat → Ctx)
    (gen_key gen_val : Nat → List Nat) (a b tso : Nat) (hab : a < b) :
    PutKvInv resolveCtx gen_key gen_val a b tso := by
  have hrange : List.range' a (b - a) = a :: List.range' (a + 1) (b - a - 1) := by
    have h : b - a = (b - a - 1) + 1 := by omega
    rw [h, List.range'_succ]
    simp
  unfold PutKvInv put_kv kv_prewrite kv_commit get_ts
  rw [hrange]
  simp only [List.map_cons, List.head?_cons]
  exact ⟨by omega, trivial, List.mem_cons_self _ _, ⟨_, rfl, rfl, rfl, rfl, rfl⟩⟩

/-- Witness for C7's amended form on the range `0..2`. -/
theorem put_kv_invariants_witness :
    (0 : Nat) < 2 ∧
    PutKvInv (fun _ => ⟨0, 0, 0⟩) (fun i => [i]) (fun i => [i + 10]) 0 2 0 :=
  ⟨by decide,
    put_kv_invariants (fun _ => ⟨0, 0, 0⟩) (fun i => [i]) (fun i => [i + 10])
      0 2 0 (by decide)⟩

/-! ## Bounded polling loops (`wait_region_replicated`, `remove_node_peers`)

Both operations are `for _ in 0..N { if cond { return } ; sleep }` then
`panic!`.  External state observed on the `k`-th poll is a function of
`k`.  `findPoll cond k fuel` is such a loop with `fuel` polls left,
about to run poll `k`: `some j` is a normal return on poll `j`, `none`
is the panic. -/

/-- A bounded polling loop: run polls `k, k+1, ...` while fuel lasts,
returning the first poll index whose condition holds. -/
def findPoll (cond : Nat → Bool) : Nat → Nat → Option Nat
  | _, 0 => none
  | k, fuel + 1 => if cond k then some k else findPoll cond (k + 1) fuel

lemma findPoll_none_iff (cond : Nat → Bool) :
    ∀ fuel k, findPoll cond k fuel = none ↔
      ∀ j, k ≤ j → j < k + fuel → cond j = false := by
  intro fuel
  induction fuel with
  | zero =>
    intro k
    constructor
    · intro _ j h1 h2
      omega
    · intro _
      rfl
  | succ fuel ih =>
    intro k
    show (if cond k then some k else findPoll cond (k + 1) fuel) = none ↔ _
    by_cases h : cond k
    · rw [if_pos h]
      constructor
      · intro hc
        exact Option.noConfusion hc
      · intro hall
        rw [hall k (le_refl k) (by omega)] at h
        exact Bool.noConfusion h
    · rw [if_neg h, ih (k + 1)]
      constructor
      · intro hall j h1 h2
        rcases Nat.eq_or_lt_of_le h1 with he | hl
        · rw [← he]
          exact Bool.eq_false_iff.mpr h
        · exact hall j hl (by omega)
      · intro hall j h1 h2
        exact hall j (by omega) (by omega)

lemma findPoll_some (cond : Nat → Bool) :
    ∀ fuel k j, findPoll cond k fuel = some j →
      cond j = true ∧ k ≤ j ∧ j < k + fuel := by
  intro fuel
  induction fuel with
  | zero =>
    intro k j h
    exact Option.noConfusion h
  | succ fuel ih =>
    intro k j h
    rw [show findPoll cond k (fuel + 1) =
        (if cond k then some k else findPoll cond (k + 1) fuel) from rfl] at h
    by_cases hc : cond k
    · rw [if_pos hc] at h
      cases h
      exact ⟨hc, le_refl _, by omega⟩
    · rw [if_neg hc] at h
      obtain ⟨h1, h2, h3⟩ := ih (k + 1) j h
      exact ⟨h1, by omega, by omega⟩

/-- One replica of a region, as the placement driver reports it. -/
structure Peer where
  storeId : Nat
  deriving DecidableEq

/-- The region info `pd_client.get_region_info(key)` returns: region
id, region epoch version, and the peer list. -/
structure RegionInfo where
  id : Nat
  ver : Nat
  peers : List Peer
  deriving DecidableEq

/-- The poll body of `wait_region_replicated` at poll `k`: re-fetch the
region info for the key, and succeed when the peer count reaches
`replica_cnt` and every peer's engine opens the shard at the region's
current `(id, version)`.  `poll k` is the region info the placement
driver returns on poll `k`; `canOpen k store id ver` says whether, at
poll `k`, the engine of the server whose store id is `store` can open
shard `(id, ver)` (`get_shard_with_ver(...).is_ok()` on the node found
by `get_server_node_id`). -/
def region_replicated_at (poll : Nat → RegionInfo)
    (canOpen : Nat → Nat → Nat → Nat → Bool) (replica_cnt k : Nat) : Bool :=
  let ri := poll k
  decide (replica_cnt ≤ ri.peers.length) &&
    ri.peers.all (fun peer => canOpen k peer.storeId ri.id ri.ver)

/-- Rust `pub fn wait_region_replicated(&self, key, replica_cnt)`: up to 10
polls 300 ms apart; `some k` = returned on poll `k`, `none` = the
`panic!("region is not replicated")`. -/
def wait_region_replicated (poll : Nat → RegionInfo)
    (canOpen : Nat → Nat → Nat → Nat → Bool) (replica_cnt : Nat) : Option Nat :=
  findPoll (region_replicated_at poll canOpen replica_cnt) 0 10

/-- C8: `wait_region_replicated` returns normally iff on some of its
(at most 10) polls the region had at least `replica_cnt` peers with
every peer's engine able to open the shard at the region's current
`(id, version)`; a normal return on poll `k` certifies exactly that
observation at `k`, and if no poll satisfies it the call panics. -/
theorem wait_region_replicated_spec (poll : Nat → RegionInfo)
    (canOpen : Nat → Nat → Nat → Nat → Bool) (replica_cnt : Nat) :
    ((∃ k, wait_region_replicated poll canOpen replica_cnt = some k) ↔
      ∃ k, k < 10 ∧ region_replicated_at poll canOpen replica_cnt k = true) ∧
    (∀ k, wait_region_replicated poll canOpen replica_cnt = some k →
      k < 10 ∧ replica_cnt ≤ (poll k).peers.length ∧
      ∀ peer ∈ (poll k).peers,
        canOpen k peer.storeId (poll k).id (poll k).ver = true) ∧
    ((∀ k, k < 10 → region_replicated_at poll canOpen replica_cnt k = false) →
      wait_region_replicated poll canOpen replica_cnt = none) := by
  refine ⟨⟨?_, ?_⟩, ?_, ?_⟩
  · rintro ⟨k, hk⟩
    obtain ⟨hc, _, hlt⟩ := findPoll_some _ 10 0 k hk
    exact ⟨k, by omega, hc⟩
  · rintro ⟨k, hk, hc⟩
    cases h : wait_region_replicated poll canOpen replica_cnt with
    | some j => exact ⟨j, rfl⟩
    | none =>
      rw [wait_region_replicated, findPoll_none_iff] at h
      rw [h k (by omega) (by omega)] at hc
      exact Bool.noConfusion hc
  · intro k hk
    obtain ⟨hc, _, hlt⟩ := findPoll_some _ 10 0 k hk
    unfold region_replicated_at at hc
    simp only [Bool.and_eq_true, decide_eq_true_eq, List.all_eq_true] at hc
    exact ⟨by omega, hc.1, hc.2⟩
  · intro hall
    rw [wait_region_replicated, findPoll_none_iff]
    intro j h1 h2
    exact hall j (by omega)

/-- Witness for C8: one node, one peer, every snapshot openable — the
wait returns on poll 0 with the observation certified. -/
theorem wait_region_replicated_spec_witness :
    (wait_region_replicated (fun _ => ⟨1, 1, [⟨7⟩]⟩) (fun _ _ _ _ => true) 1
        = some 0) ∧
    (0 < 10 ∧ 1 ≤ (RegionInfo.mk 1 1 [⟨7⟩]).peers.length ∧
      ∀ peer ∈ (RegionInfo.mk 1 1 [⟨7⟩]).peers, true = true) :=
  ⟨rfl, (wait_region_replicated_spec (fun _ => ⟨1, 1, [⟨7⟩]⟩)
      (fun _ _ _ _ => true) 1).2.1 0 rfl⟩

/-! ## `remove_node_peers` (drain) -/

/-- A shard's `(id, version)` as the engine enumerates it
(`get_all_shard_id_vers`). -/
structure ShardIdVer where
  id : Nat
  ver : Nat
  deriving DecidableEq

/-- A region as `get_region_leader_by_id` reports it. -/
structure Region where
  id : Nat
  peers : List Peer
  deriving DecidableEq

/-- One administrative mutation the drain issues to the placement
driver. -/
inductive AdminOp where
  | transferLeader (regionId target : Nat)
  | removePeer (regionId peerStore : Nat)
  deriving DecidableEq

/-- The drain's per-shard body: look up the region and leader; if the
leader sits on this store, find any peer on another store
(`.unwrap()` — `none` panics when there is none) and transfer
leadership to it; then, if the region still has a peer on this store
(`find_peer`), remove that peer. -/
def process_shard (pd : Nat → Region × Peer) (store_id : Nat)
    (sv : ShardIdVer) : Option (List AdminOp) :=
  let rl := pd sv.id
  let region := rl.1
  let leader := rl.2
  let transferOps :=
    if leader.storeId = store_id then
      match region.peers.find? (fun x => x.storeId != store_id) with
      | none => none
      | some target => some [AdminOp.transferLeader region.id target.storeId]
    else some []
  match transferOps with
  | none => none
  | some ops =>
    match region.peers.find? (fun x => x.storeId == store_id) with
    | none => some ops
    | some peer => some (ops ++ [AdminOp.removePeer region.id peer.storeId])

/-- The drain's first phase: process every shard of the initial
`get_all_shard_id_vers()` snapshot in order. -/
def process_shards (pd : Nat → Region × Peer) (store_id : Nat) :
    List ShardIdVer → Option (List AdminOp)
  | [] => some []
  | sv :: rest =>
    match process_shard pd store_id sv with
    | none => none
    | some ops =>
      match process_shards pd store_id rest with
      | none => none
      | some more => some (ops ++ more)

/-- Rust `pub fn remove_node_peers(&mut self, node_id)`: process every shard
the node owned, then poll the node's local shard set
(`get_all_shard_id_vers()` at poll `k` is `shardsAt k`) up to 30 times
100 ms apart; `some (ops, k)` is a normal return after poll `k`
observed the set empty, `none` is a panic. -/
def remove_node_peers (pd : Nat → Region × Peer) (store_id : Nat)
    (all_id_vers : List ShardIdVer) (shardsAt : Nat → List ShardIdVer) :
    Option (List AdminOp × Nat) :=
  match process_shards pd store_id all_id_vers with
  | none => none
  | some ops =>
    match findPoll (fun k => (shardsAt k).isEmpty) 0 30 with
    | none => none
    | some k => some (ops, k)

/-- C9: `remove_node_peers` returns normally only when some of its (at
most 30) post-drain polls observed the engine's shard list empty; if
every poll still sees a non-empty list, it panics. -/
theorem remove_node_peers_spec (pd : Nat → Region × Peer) (store_id : Nat)
    (all_id_vers : List ShardIdVer) (shardsAt : Nat → List ShardIdVer) :
    (∀ ops k, remove_node_peers pd store_id all_id_vers shardsAt
        = some (ops, k) → k < 30 ∧ shardsAt k = []) ∧
    (∀ ops, process_shards pd store_id all_id_vers = some ops →
      (∀ k, k < 30 → shardsAt k ≠ []) →
      remove_node_peers pd store_id all_id_vers shardsAt = none) := by
  constructor
  · intro ops k h
    rw [remove_node_peers] at h
    cases hp : process_shards pd store_id all_id_vers with
    | none =>
      rw [hp] at h
      exact Option.noConfusion h
    | some ops0 =>
      rw [hp] at h
      cases hf : findPoll (fun k => (shardsAt k).isEmpty) 0 30 with
      | none =>
        rw [hf] at h
        exact Option.noConfusion h
      | some j =>
        rw [hf] at h
        cases h
        obtain ⟨hc, _, hlt⟩ := findPoll_some _ 30 0 k hf
        exact ⟨by omega, by simpa using hc⟩
  · intro ops hp hall
    rw [remove_node_peers, hp]
    have hf : findPoll (fun k => (shardsAt k).isEmpty) 0 30 = none := by
      rw [findPoll_none_iff]
      intro j h1 h2
      simpa using hall j (by omega)
    rw [hf]

/-- Witness for C9: a node owning no shards whose shard set reads empty
on the first poll. -/
theorem remove_node_peers_spec_witness :
    remove_node_peers (fun _ => (⟨0, []⟩, ⟨0⟩)) 7 [] (fun _ => []) =
        some ([], 0) ∧
    (0 < 30 ∧ ([] : List ShardIdVer) = []) :=
  ⟨rfl, (remove_node_peers_spec (fun _ => (⟨0, []⟩, ⟨0⟩)) 7 []
      (fun _ => [])).1 [] 0 rfl⟩

end Cluster
